import Mathlib

/-!
Verification development for the caseflow CSV import pipeline.

Definitions are shallow embeddings of the TypeScript sources:
  - `src/lib/validations.ts` (`normalizePhone`, `titleCase`, `CaseSchema`),
  - `src/state/store.ts` (the import store: `setRawData`, `updateRow`,
    `updateMultipleRows`, `addBatchResults`),
  - `src/app/(dashboard)/import/page.tsx` (`validateData`),
  - `src/components/import/FixAllToolbar.tsx` (the four bulk fix
    operations, `fixAll`, and the batch submitter `startSubmission`,
    `cancelSubmission`, `retryFailed`).

External collaborators (libphonenumber-js, the JavaScript `Date`
constructor, zod's message strings) are modelled by executable functions
whose doc comments state the modelling assumptions; the control flow
around them is translated directly from the source.
-/

namespace Caseflow

/-! ## Data model (src/state/store.ts) -/

/-- A JavaScript property value of the row object: the declared types are
`number` for `_rowIndex` and `string` for the columns, but the
`[key: string]: string | number` index signature admits writing a string
over `_rowIndex`, so the `_rowIndex` property must carry either. -/
inductive JsVal where
  | num (n : Nat)
  | str (s : String)
deriving Repr, DecidableEq

/-- One imported CSV row.  The TypeScript interface `CSVRow` declares the
`_rowIndex` property (a number until a dynamic write clobbers it with a
string — see `setField`) plus the seven string-typed canonical columns
and an index signature for passthrough columns; the passthrough columns
are kept in `extra`.  `rowIndex` models `_rowIndex`. -/
structure CSVRow where
  rowIndex : JsVal
  case_id : String
  applicant_name : String
  dob : String
  email : String
  phone : String
  category : String
  priority : String
  extra : List (String × String) := []
deriving Repr, DecidableEq

/-- Lookup in the passthrough-column association list; a missing key reads
as the empty string (JS `undefined` cast to string in the one place the
page reads an unknown column). -/
def lookupAssoc : List (String × String) → String → String
  | [], _ => ""
  | (k, w) :: rest, f => if k = f then w else lookupAssoc rest f

/-- Replace the first binding of a key, or append a new binding. -/
def setAssoc : List (String × String) → String → String → List (String × String)
  | [], f, v => [(f, v)]
  | (k, w) :: rest, f, v =>
      if k = f then (f, v) :: rest else (k, w) :: setAssoc rest f v

/-- Dynamic property read `row[field]` for the string-valued columns —
the only reads the source performs through a dynamic field name
(`validateData`'s `row[mappedField]` and the toolbar's `row[field]`);
`_rowIndex` is only ever read as a direct property access. -/
def getField (r : CSVRow) (f : String) : String :=
  if f = "case_id" then r.case_id
  else if f = "applicant_name" then r.applicant_name
  else if f = "dob" then r.dob
  else if f = "email" then r.email
  else if f = "phone" then r.phone
  else if f = "category" then r.category
  else if f = "priority" then r.priority
  else lookupAssoc r.extra f

/-- Dynamic property write `{ ...row, [field]: value }` as performed by the
store's `updateRow`/`updateMultipleRows`.  A write to the key
`"_rowIndex"` overwrites the `_rowIndex` property with the string value
(the index signature admits it), clobbering the row's number index. -/
def setField (r : CSVRow) (f v : String) : CSVRow :=
  if f = "_rowIndex" then { r with rowIndex := JsVal.str v }
  else if f = "case_id" then { r with case_id := v }
  else if f = "applicant_name" then { r with applicant_name := v }
  else if f = "dob" then { r with dob := v }
  else if f = "email" then { r with email := v }
  else if f = "phone" then { r with phone := v }
  else if f = "category" then { r with category := v }
  else if f = "priority" then { r with priority := v }
  else { r with extra := setAssoc r.extra f v }

/-- Validation error tuple (src/lib/validations.ts `ValidationError`). -/
structure ValidationError where
  row : Nat
  field : String
  value : String
  message : String
deriving Repr, DecidableEq

/-- Per-row outcome of a submission attempt (src/state/store.ts
`BatchResult`). -/
structure BatchResult where
  success : Bool
  caseId : String
  error : Option String := none
  id : Option String := none
deriving Repr, DecidableEq

/-- Submission progress counters (src/state/store.ts `ImportProgress`). -/
structure ImportProgress where
  total : Nat
  processed : Nat
  success : Nat
  failed : Nat
  currentBatch : Nat
  totalBatches : Nat
deriving Repr, DecidableEq

/-- The slice of the zustand import store the pipeline mutates. -/
structure ImportState where
  rawData : List CSVRow
  headers : List String
  filename : Option String
  validationErrors : List ValidationError
  importId : Option String
  progress : Option ImportProgress
  batchResults : List BatchResult
  isSubmitting : Bool
deriving Repr, DecidableEq

/-- Store action `setRawData`: installs a parsed row set, assigning each
row its 0-based position as `_rowIndex` and clearing derived state. -/
def setRawData (s : ImportState) (data : List CSVRow) (headers : List String)
    (filename : String) : ImportState :=
  { s with
    rawData := data.enum.map (fun p => { p.2 with rowIndex := JsVal.num p.1 })
    headers := headers
    filename := some filename
    validationErrors := []
    batchResults := []
    progress := none }

/-- Store action `updateRow`: rewrites every row whose `_rowIndex` matches,
spreading the new field value over it. -/
def updateRow (s : ImportState) (rowIndex : Nat) (field value : String) :
    ImportState :=
  { s with
    rawData := s.rawData.map (fun row =>
      if row.rowIndex = JsVal.num rowIndex then setField row field value
      else row) }

/-- One entry of the edit list passed to `updateMultipleRows`.  Its
declared TS type says `rowIndex: number`, but the toolbar pushes
`row._rowIndex` verbatim and `findIndex` compares it with `===`, so the
runtime value is whatever the property holds. -/
structure RowUpdate where
  rowIndex : JsVal
  field : String
  value : String
deriving Repr, DecidableEq

/-- One step of `updateMultipleRows`: `findIndex` locates the first row
with the given `_rowIndex` and replaces it; `-1` (no match) leaves the
array unchanged. -/
def applyUpdate : List CSVRow → RowUpdate → List CSVRow
  | [], _ => []
  | row :: rest, u =>
      if row.rowIndex = u.rowIndex then setField row u.field u.value :: rest
      else row :: applyUpdate rest u

/-- Store action `updateMultipleRows`: applies the edit list in order. -/
def updateMultipleRows (s : ImportState) (updates : List RowUpdate) :
    ImportState :=
  { s with rawData := updates.foldl applyUpdate s.rawData }

/-- Store action `addBatchResults`: appends to the accumulated list. -/
def addBatchResults (s : ImportState) (results : List BatchResult) :
    ImportState :=
  { s with batchResults := s.batchResults ++ results }

/-! ## String helpers

JavaScript's `trim`, `split` and digit parsing are modelled on `List Char`
(Lean's core `String.trim`/`String.split` use well-founded recursion on
byte positions, which the kernel cannot evaluate; these list versions
compute the same strings for the inputs this development uses). -/

/-- JS `String.prototype.trim` on the character list: drop whitespace from
both ends. -/
def trimList (cs : List Char) : List Char :=
  ((cs.dropWhile Char.isWhitespace).reverse.dropWhile Char.isWhitespace).reverse

/-- JS `value.trim()`. -/
def trimStr (s : String) : String := String.mk (trimList s.data)

/-- Accumulator pass for `splitWs`. -/
def splitWsAux : List Char → List Char → List (List Char)
  | [], acc => if acc.isEmpty then [] else [acc.reverse]
  | c :: rest, acc =>
      if c.isWhitespace then
        if acc.isEmpty then splitWsAux rest [] else acc.reverse :: splitWsAux rest []
      else splitWsAux rest (c :: acc)

/-- JS `split(/\s+/)` restricted to inputs without leading whitespace: the
maximal whitespace-free tokens, in order. -/
def splitWs (cs : List Char) : List (List Char) := splitWsAux cs []

/-- Accumulator pass for `splitSep`. -/
def splitSepAux (sep : Char) : List Char → List Char → List (List Char)
  | [], acc => [acc.reverse]
  | c :: rest, acc =>
      if c = sep then acc.reverse :: splitSepAux sep rest []
      else splitSepAux sep rest (c :: acc)

/-- JS `split("-")` and similar: split at every separator, keeping empty
segments. -/
def splitSep (sep : Char) (cs : List Char) : List (List Char) :=
  splitSepAux sep cs []

/-- Numeric value of a digit list (the digits have been checked first). -/
def digitsVal (cs : List Char) : Nat :=
  cs.foldl (fun n c => n * 10 + (c.toNat - '0'.toNat)) 0

/-! ## Phone and name normalization (src/lib/validations.ts) -/

/-- Model of libphonenumber-js validity for a national number dialled with
default region India: exactly ten digits with leading digit 6–9 (an Indian
mobile number).  Other national formats are treated as invalid; this is
adequate for the phone strings this development evaluates. -/
def validIndianNational (s : String) : Bool :=
  s.data.length = 10 && s.data.all Char.isDigit &&
    (match s.data with
     | c :: _ => c = '6' || c = '7' || c = '8' || c = '9'
     | [] => false)

/-- Model of libphonenumber-js validity for an international `+`-prefixed
number, modelled for country code 91 (India): `+91` followed by a valid
ten-digit mobile number.  Numbers of other countries are treated as
invalid; adequate for the inputs this development evaluates. -/
def validInternational (s : String) : Bool :=
  match s.data with
  | '+' :: '9' :: '1' :: rest =>
      validIndianNational (String.mk rest)
  | _ => false

/-- Model of `isValidPhoneNumber(s, "IN")`: a `+`-prefixed input ignores
the default region and is checked internationally; otherwise the input is
checked as an Indian national number. -/
def isValidPhoneNumberIN (s : String) : Bool :=
  match s.data with
  | '+' :: _ => validInternational s
  | _ => validIndianNational s

/-- Model of `parsePhoneNumber(..).format("E.164")` on the inputs accepted
by the validity checks above: a national Indian number gains the `+91`
prefix, a `+`-prefixed number is already in E.164 form. -/
def formatE164 (s : String) : String :=
  match s.data with
  | '+' :: _ => s
  | _ => "+91" ++ s

/-- Function `normalizePhone` (src/lib/validations.ts): trim; empty means absent
(`null`); then try the default-region (India) interpretation, then generic
international parsing; `null` when both fail. -/
def normalizePhone (phone : String) : Option String :=
  if trimStr phone = "" then none
  else
    let cleaned := trimStr phone
    if isValidPhoneNumberIN cleaned then some (formatE164 cleaned)
    else if validInternational cleaned then some (formatE164 cleaned)
    else none

/-- One word of `titleCase`: uppercase the first character, lowercase the
rest (JS `charAt(0).toUpperCase() + slice(1).toLowerCase()`). -/
def titleWord (w : String) : String :=
  match w.data with
  | [] => ""
  | c :: cs => String.mk (c.toUpper :: cs.map Char.toLower)

/-- Function `titleCase` (src/lib/validations.ts): trim, split on whitespace runs
(JS `split(/\s+/)`, which yields no empty tokens on a trimmed string),
title-case each token, join with single spaces. -/
def titleCase (name : String) : String :=
  String.intercalate " " ((splitWs (trimList name.data)).map (fun cs => titleWord (String.mk cs)))

/-! ## Row Validator (src/app/(dashboard)/import/page.tsx `validateData`,
with the field rules of src/lib/validations.ts `CaseSchema`) -/

/-- Model of the JavaScript `new Date(s)` constructor restricted to ISO
`YYYY-MM-DD` strings (the format the pipeline's CSV dates use; other
accepted JS formats are treated as invalid here).  Returns a code that is
strictly monotone in the calendar date, for the order comparisons the dob
refinements perform. -/
def jsDateCode (s : String) : Option Nat :=
  match splitSep '-' s.data with
  | [ys, ms, ds] =>
      if ys.length = 4 && ms.length = 2 && ds.length = 2 &&
          ys.all Char.isDigit && ms.all Char.isDigit && ds.all Char.isDigit then
        let y := digitsVal ys
        let m := digitsVal ms
        let d := digitsVal ds
        if 1 ≤ m && m ≤ 12 && 1 ≤ d && d ≤ 31 then
          some ((y * 13 + m) * 32 + d)
        else none
      else none
  | _ => none

/-- The code of the schema's `minDate`, `new Date("1900-01-01")`. -/
def minDateCode : Nat := (1900 * 13 + 1) * 32 + 1

/-- Zod's `^[A-Za-z0-9-]+$` test on `caseId`. -/
def caseIdPatternOk (s : String) : Bool :=
  !s.data.isEmpty && s.data.all (fun c => c.isAlphanum || c = '-')

/-- Model of zod's `.email()` format test: one `@` with a nonempty local
part and a domain that contains a dot.  (Zod's actual regex differs in
corner cases; no claim in this development depends on them.) -/
def emailFormatOk (s : String) : Bool :=
  match splitSep '@' s.data with
  | [local_, domain] =>
      !local_.isEmpty && !domain.isEmpty && domain.contains '.' &&
        domain.head? ≠ some '.' && domain.getLast? ≠ some '.'
  | _ => false

/-- Test `CategoryEnum.safeParse(v).success`. -/
def categoryOk (v : String) : Bool :=
  v = "TAX" || v = "LICENSE" || v = "PERMIT"

/-- Test `PriorityEnum.safeParse(v).success`. -/
def priorityOk (v : String) : Bool :=
  v = "LOW" || v = "MEDIUM" || v = "HIGH"

/-- The issues `CaseSchema.safeParse` reports for one row, as
(schema-field, message) pairs in the schema's field-declaration order
(zod walks the object shape in declaration order, and within one string
schema every failed check contributes an issue; a failed `.refine` marks
the result dirty but the next refinement still runs).  `validateData`
passes `email: row.email || undefined`, `phone: row.phone || undefined`
and `priority: row.priority || undefined`; the `phone` schema only
`transform`s (a failed normalization yields `null`, never an issue), and
an absent `priority` takes the default without an issue.  Messages not
fixed by the source are abbreviated models of zod's defaults. -/
def schemaIssues (today : Nat) (row : CSVRow) : List (String × String) :=
  (if row.case_id.data.length < 1 then [("caseId", "Case ID is required")] else []) ++
  (if !caseIdPatternOk row.case_id then
      [("caseId", "Case ID must be alphanumeric with hyphens")] else []) ++
  (if row.applicant_name.data.length < 1 then
      [("applicantName", "Applicant name is required")] else []) ++
  (if row.applicant_name.data.length > 255 then
      [("applicantName", "Applicant name must be less than 255 characters")] else []) ++
  (match jsDateCode row.dob with
   | none =>
      [("dob", "Invalid date format"),
       ("dob", "Date of birth must be between 1900 and today")]
   | some d =>
      if minDateCode ≤ d && d ≤ today then []
      else [("dob", "Date of birth must be between 1900 and today")]) ++
  (if row.email ≠ "" && !emailFormatOk row.email then
      [("email", "Invalid input")] else []) ++
  (if !categoryOk row.category then [("category", "Invalid enum value")] else []) ++
  (if row.priority ≠ "" && !priorityOk row.priority then
      [("priority", "Invalid enum value")] else [])

/-- The schema-field-to-CSV-column renaming `validateData` performs. -/
def mapFieldName (f : String) : String :=
  if f = "caseId" then "case_id"
  else if f = "applicantName" then "applicant_name"
  else f

/-- All (field, message) pairs `validateData` emits for one row after the
duplicate check: the mapped schema issues, then the supplementary category
check, then the supplementary priority check. -/
def rowIssues (today : Nat) (row : CSVRow) : List (String × String) :=
  (schemaIssues today row).map (fun p => (mapFieldName p.1, p.2)) ++
  (if row.category ≠ "" && !categoryOk row.category then
      [("category", "Category must be TAX, LICENSE, or PERMIT")] else []) ++
  (if row.priority ≠ "" && !priorityOk row.priority then
      [("priority", "Priority must be LOW, MEDIUM, or HIGH")] else [])

/-- The field-level validation errors for the row at position `idx`
(`value` is `row[mappedField]`). -/
def rowFieldErrors (today : Nat) (idx : Nat) (row : CSVRow) : List ValidationError :=
  (rowIssues today row).map (fun p =>
    { row := idx, field := p.1, value := getField row p.1, message := p.2 })

/-- Lookup in the model of the `seenIds` map. -/
def lookupSeen : List (String × Nat) → String → Option Nat
  | [], _ => none
  | (k, v) :: rest, c => if k = c then some v else lookupSeen rest c

/-- The duplicate-case-id message, 1-based as in the source template
string. -/
def dupMsg (first : Nat) : String :=
  "Duplicate case ID (first seen at row " ++ toString (first + 1) ++ ")"

/-- The duplicate-check part of the `forEach` body: a nonempty case id
already in `seenIds` yields the duplicate error naming the remembered
first position. -/
def dupErrors (idx : Nat) (row : CSVRow) (seen : List (String × Nat)) :
    List ValidationError :=
  if row.case_id ≠ "" then
    match lookupSeen seen row.case_id with
    | some first =>
        [{ row := idx, field := "case_id", value := row.case_id,
           message := dupMsg first }]
    | none => []
  else []

/-- The `seenIds.set` step: remember the position of a nonempty case id
not yet in the map. -/
def seenInsert (seen : List (String × Nat)) (row : CSVRow) (idx : Nat) :
    List (String × Nat) :=
  if row.case_id ≠ "" && (lookupSeen seen row.case_id).isNone then
    seen ++ [(row.case_id, idx)]
  else seen

/-- The `forEach` body of `validateData`: for each row (at running
position `idx`, with the `seenIds` map built so far), emit the duplicate
error, then the field errors, then recurse with `seenIds` extended at the
first occurrence of a nonempty case id. -/
def validateAux (today : Nat) : List CSVRow → Nat → List (String × Nat) →
    List ValidationError
  | [], _, _ => []
  | row :: rest, idx, seen =>
      dupErrors idx row seen ++
      rowFieldErrors today idx row ++
      validateAux today rest (idx + 1) (seenInsert seen row idx)

/-- Function `validateData` (import/page.tsx): the complete error list for a row
set.  `today` is the code of the current date (`new Date()` in the dob
upper-bound check). -/
def validateData (today : Nat) (rows : List CSVRow) : List ValidationError :=
  validateAux today rows 0 []

/-- The `seenIds` map accumulated by processing a prefix of the row set,
starting from `seen` at running position `idx`. -/
def extendSeen (seen : List (String × Nat)) (idx : Nat) :
    List CSVRow → List (String × Nat)
  | [] => seen
  | row :: rest => extendSeen (seenInsert seen row idx) (idx + 1) rest

/-- Position of the first row carrying the given case id. -/
def firstOcc (c : String) : List CSVRow → Option Nat
  | [] => none
  | row :: rest =>
      if row.case_id = c then some 0 else (firstOcc c rest).map (· + 1)

/-- Declaration order of the schema fields, for stating the spec's
"within a row, field-declaration order" (unknown fields sort last). -/
def fieldRank (f : String) : Nat :=
  if f = "case_id" then 0
  else if f = "applicant_name" then 1
  else if f = "dob" then 2
  else if f = "email" then 3
  else if f = "phone" then 4
  else if f = "category" then 5
  else if f = "priority" then 6
  else 7

/-- The ordering the spec claims for the error list: row index ascending,
then field-declaration order within a row. -/
def specErrorOrder (a b : ValidationError) : Prop :=
  a.row < b.row ∨ (a.row = b.row ∧ fieldRank a.field ≤ fieldRank b.field)

instance : DecidableRel specErrorOrder := fun a b => by
  unfold specErrorOrder; infer_instance

/-! ## Correction Engine (src/components/import/FixAllToolbar.tsx)

Each operation is a `useCallback` closure over the `rawData` snapshot of
the render that created it.  `updateMultipleRows` writes new row objects
into the store, so within one synchronous `fixAll` invocation (no
re-render happens until the event handler returns) all four operations
read the same snapshot `S`, while their edits commit to the evolving
store. -/

/-- Operation `trimWhitespace`: over the snapshot, for the four textual fields in
order, an edit wherever the value differs from its trim. -/
def trimWhitespaceUpdates (S : List CSVRow) : List RowUpdate :=
  S.flatMap (fun row =>
    ["case_id", "applicant_name", "email", "phone"].filterMap (fun f =>
      let v := getField row f
      if v ≠ trimStr v then some ⟨row.rowIndex, f, trimStr v⟩ else none))

/-- Operation `titleCaseNames`: an edit wherever the name is nonblank and title-casing
changes it. -/
def titleCaseNamesUpdates (S : List CSVRow) : List RowUpdate :=
  S.filterMap (fun row =>
    if trimStr row.applicant_name ≠ "" && titleCase row.applicant_name ≠ row.applicant_name then
      some ⟨row.rowIndex, "applicant_name", titleCase row.applicant_name⟩
    else none)

/-- Operation `normalizePhones`: an edit wherever the phone is nonblank, normalization
succeeds, and the normal form differs from the stored value. -/
def normalizePhonesUpdates (S : List CSVRow) : List RowUpdate :=
  S.filterMap (fun row =>
    if trimStr row.phone ≠ "" then
      match normalizePhone row.phone with
      | some normalized =>
          if normalized ≠ row.phone then some ⟨row.rowIndex, "phone", normalized⟩
          else none
      | none => none
    else none)

/-- Operation `setDefaultPriority`: an edit to `"LOW"` wherever the priority is empty
or blank. -/
def setDefaultPriorityUpdates (S : List CSVRow) : List RowUpdate :=
  S.filterMap (fun row =>
    if trimStr row.priority = "" then some ⟨row.rowIndex, "priority", "LOW"⟩
    else none)

/-- One toolbar operation: commit the edits (only when there are any) and
report their number. -/
def runOp (st : ImportState) (updates : List RowUpdate) : Nat × ImportState :=
  (updates.length, if updates.isEmpty then st else updateMultipleRows st updates)

/-- Function `fixAll` as the code executes it: the four operations run in order,
each computing its edits from the snapshot `st.rawData` captured when the
invocation began (the closures' `rawData`), committing to the store state
left by the previous operation, and the returned total is the sum of the
four edit counts. -/
def fixAll (st : ImportState) : Nat × ImportState :=
  let S := st.rawData
  let r1 := runOp st (trimWhitespaceUpdates S)
  let r2 := runOp r1.2 (titleCaseNamesUpdates S)
  let r3 := runOp r2.2 (normalizePhonesUpdates S)
  let r4 := runOp r3.2 (setDefaultPriorityUpdates S)
  (r1.1 + r2.1 + r3.1 + r4.1, r4.2)

/-- Modelled from the spec: the fix-all semantics §4.3 claims, in which
each later operation observes the row values produced by the earlier
operations of the same invocation (each operation reads the store state
left by its predecessor). -/
def fixAllSpec (st : ImportState) : Nat × ImportState :=
  let r1 := runOp st (trimWhitespaceUpdates st.rawData)
  let r2 := runOp r1.2 (titleCaseNamesUpdates r1.2.rawData)
  let r3 := runOp r2.2 (normalizePhonesUpdates r2.2.rawData)
  let r4 := runOp r3.2 (setDefaultPriorityUpdates r3.2.rawData)
  (r1.1 + r2.1 + r3.1 + r4.1, r4.2)

/-! ## Batch Submitter (src/components/import/FixAllToolbar.tsx, the
`BatchSubmit` component) -/

/-- The `BATCH_SIZE` constant. -/
def BATCH_SIZE : Nat := 100

/-- The rows with no associated validation error
(`validRows = rawData.filter(row => !validationErrors.some(e => e.row === row._rowIndex))`). -/
def validRowsOf (rawData : List CSVRow) (errors : List ValidationError) :
    List CSVRow :=
  rawData.filter (fun row =>
    !(errors.any (fun e => JsVal.num e.row = row.rowIndex)))

/-- Environment outcome of posting one batch: a transport-level failure of
the whole request, or a response carrying per-row results. -/
inductive BatchOutcome where
  | transportFail
  | ok (results : List BatchResult)
deriving Repr, DecidableEq

/-- The mutable locals of one `startSubmission` run. -/
structure SubmissionState where
  progress : Option ImportProgress
  batchResults : List BatchResult
  successCount : Nat
  failedCount : Nat
deriving Repr, DecidableEq

/-- Batch `i`: `validRows.slice(i*BATCH_SIZE, min((i+1)*BATCH_SIZE, n))`. -/
def batchOf (rows : List CSVRow) (i : Nat) : List CSVRow :=
  (rows.drop (i * BATCH_SIZE)).take BATCH_SIZE

/-- The Batch Result recorded for one row of a batch whose request failed
at the transport level. -/
def transportFailResult (row : CSVRow) : BatchResult :=
  { success := false, caseId := row.case_id,
    error := some "Network error - please retry" }

/-- The loop body for batch `i`: on a successful request the response's
results are appended verbatim and counted; on a transport failure every
row of the batch is recorded failed with the generic retry message.  Both
branches then republish the progress counters with `processed = end`. -/
def processBatch (rows : List CSVRow) (totalBatches : Nat)
    (outcomes : Nat → BatchOutcome) (st : SubmissionState) (i : Nat) :
    SubmissionState :=
  let endIdx := min (i * BATCH_SIZE + BATCH_SIZE) rows.length
  match outcomes i with
  | BatchOutcome.ok results =>
      let newSuccess := st.successCount + (results.filter (fun r => r.success)).length
      let newFailed := st.failedCount + (results.filter (fun r => !r.success)).length
      { progress := some
          { total := rows.length, processed := endIdx, success := newSuccess,
            failed := newFailed, currentBatch := i + 1, totalBatches := totalBatches }
        batchResults := st.batchResults ++ results
        successCount := newSuccess
        failedCount := newFailed }
  | BatchOutcome.transportFail =>
      let batch := batchOf rows i
      let newFailed := st.failedCount + batch.length
      { progress := some
          { total := rows.length, processed := endIdx, success := st.successCount,
            failed := newFailed, currentBatch := i + 1, totalBatches := totalBatches }
        batchResults := st.batchResults ++ batch.map transportFailResult
        successCount := st.successCount
        failedCount := newFailed }

/-- The `for` loop over the remaining batch indices.  `isCancelled` is the
React state value the `useCallback` closure captured when this run was
created: `setIsCancelled` re-renders with a fresh closure but cannot
change the constant the in-flight loop reads, so within one run the
checked flag never varies. -/
def runBatches (isCancelled : Bool) (rows : List CSVRow) (totalBatches : Nat)
    (outcomes : Nat → BatchOutcome) : List Nat → SubmissionState → SubmissionState
  | [], st => st
  | i :: rest, st =>
      if isCancelled then st
      else runBatches isCancelled rows totalBatches outcomes rest
        (processBatch rows totalBatches outcomes st i)

/-- Function `startSubmission`, assuming the import-record creation request
succeeds (its failure aborts the run before any batch; no claim concerns
that path).  Returns `none` when there is no error-free row (the early
return), otherwise the final run state and the status string PATCHed to
the import record.  `isCancelled` is the captured flag value described at
`runBatches`. -/
def startSubmission (isCancelled : Bool) (rawData : List CSVRow)
    (errors : List ValidationError) (outcomes : Nat → BatchOutcome) :
    Option (SubmissionState × String) :=
  let validRows := validRowsOf rawData errors
  if validRows.length = 0 then none
  else
    let totalBatches := (validRows.length + BATCH_SIZE - 1) / BATCH_SIZE
    let st0 : SubmissionState :=
      { progress := some
          { total := validRows.length, processed := 0, success := 0, failed := 0,
            currentBatch := 0, totalBatches := totalBatches }
        batchResults := [], successCount := 0, failedCount := 0 }
    let stF := runBatches isCancelled validRows totalBatches outcomes
      (List.range totalBatches) st0
    some (stF, if isCancelled then "FAILED" else "COMPLETED")

/-- Modelled from the spec: §4.5's cancellation semantics, in which the
cooperative flag is consulted afresh before each batch, so a cancellation
requested during the run stops all later batches.  `cancelRequested i`
says a cancellation request has arrived by the time batch `i` would
start.  Returns the run state and whether the loop stopped early. -/
def runBatchesSpec (cancelRequested : Nat → Bool) (rows : List CSVRow)
    (totalBatches : Nat) (outcomes : Nat → BatchOutcome) :
    List Nat → SubmissionState → SubmissionState × Bool
  | [], st => (st, false)
  | i :: rest, st =>
      if cancelRequested i then (st, true)
      else runBatchesSpec cancelRequested rows totalBatches outcomes rest
        (processBatch rows totalBatches outcomes st i)

/-- Modelled from the spec: `startSubmission` under §4.5's cancellation
semantics — on cancellation no further batch starts and the import record
is finalized `"FAILED"` rather than `"COMPLETED"`. -/
def startSubmissionSpec (cancelRequested : Nat → Bool) (rawData : List CSVRow)
    (errors : List ValidationError) (outcomes : Nat → BatchOutcome) :
    Option (SubmissionState × String) :=
  let validRows := validRowsOf rawData errors
  if validRows.length = 0 then none
  else
    let totalBatches := (validRows.length + BATCH_SIZE - 1) / BATCH_SIZE
    let st0 : SubmissionState :=
      { progress := some
          { total := validRows.length, processed := 0, success := 0, failed := 0,
            currentBatch := 0, totalBatches := totalBatches }
        batchResults := [], successCount := 0, failedCount := 0 }
    let r := runBatchesSpec cancelRequested validRows totalBatches outcomes
      (List.range totalBatches) st0
    some (r.1, if r.2 then "FAILED" else "COMPLETED")

/-- The number of batches `startSubmission` computes for `n` valid rows:
`Math.ceil(n / BATCH_SIZE)`. -/
def totalBatchesOf (n : Nat) : Nat := (n + BATCH_SIZE - 1) / BATCH_SIZE

/-- The Batch Results recorded for batch `i`: the response's results
verbatim on success, the generic per-row failures on a transport
failure. -/
def recordedResults (rows : List CSVRow) (outcomes : Nat → BatchOutcome)
    (i : Nat) : List BatchResult :=
  match outcomes i with
  | BatchOutcome.ok results => results
  | BatchOutcome.transportFail => (batchOf rows i).map transportFailResult

/-! ## Retry of failures (`retryFailed`) -/

/-- The case ids of every accumulated failed Batch Result. -/
def failedCaseIds (results : List BatchResult) : List String :=
  (results.filter (fun r => !r.success)).map (fun r => r.caseId)

/-- Computation `rowsToRetry`: the rows whose case id appears among the failed ids. -/
def rowsToRetry (rawData : List CSVRow) (results : List BatchResult) :
    List CSVRow :=
  rawData.filter (fun row => (failedCaseIds results).contains row.case_id)

/-- The row's latest accumulated Batch Result, by case identifier — the
notion the claim's "latest Batch Result marked them failed" refers to. -/
def latestResultFor (results : List BatchResult) (caseId : String) :
    Option BatchResult :=
  (results.filter (fun r => r.caseId = caseId)).getLast?

/-- The rows `retryFailed` actually submits: it computes `rowsToRetry`
only to return early when that set is empty, then calls `startSubmission`
again, which submits every error-free row. -/
def retrySubmittedRows (rawData : List CSVRow) (errors : List ValidationError)
    (results : List BatchResult) : List CSVRow :=
  if (rowsToRetry rawData results).isEmpty then []
  else validRowsOf rawData errors

/-! ## Concrete inputs for counterexamples and witnesses -/

/-- A valid date code for "today" used when evaluating the validator on
concrete rows (2026-10-11). -/
def exToday : Nat := (2026 * 13 + 10) * 32 + 11

/-- An otherwise clean row whose `category` and `priority` are both
invalid enum values. -/
def exRowC6 : CSVRow :=
  { rowIndex := JsVal.num 0, case_id := "A1", applicant_name := "Bob",
    dob := "1990-03-14", email := "", phone := "",
    category := "FOO", priority := "BAR" }

/-- Two rows sharing the nonempty case id `"X"`. -/
def exDupRows : List CSVRow :=
  [{ rowIndex := JsVal.num 0, case_id := "X", applicant_name := "Bob",
     dob := "1990-03-14", email := "", phone := "",
     category := "TAX", priority := "LOW" },
   { rowIndex := JsVal.num 1, case_id := "X", applicant_name := "Eve",
     dob := "1991-05-20", email := "", phone := "",
     category := "PERMIT", priority := "HIGH" }]

/-- A clean error-free row with the given index and case id. -/
def mkRow (i : Nat) : CSVRow :=
  { rowIndex := JsVal.num i, case_id := "C" ++ toString i, applicant_name := "Bob",
    dob := "1990-03-14", email := "", phone := "",
    category := "TAX", priority := "LOW" }

/-- 101 error-free rows: two batches (100 and 1). -/
def raw101 : List CSVRow := (List.range 101).map mkRow

/-- 250 error-free rows: three batches (100, 100, 50). -/
def raw250 : List CSVRow := (List.range 250).map mkRow

/-- Batch outcome environment in which every request succeeds with an
empty per-row result list. -/
def okEmptyOutcomes : Nat → BatchOutcome := fun _ => BatchOutcome.ok []

/-- A cancellation request arriving after the first batch. -/
def cancelAfterFirst : Nat → Bool := fun i => 1 ≤ i

/-- Two error-free rows for the retry counterexample. -/
def exRowA : CSVRow :=
  { rowIndex := JsVal.num 0, case_id := "A", applicant_name := "Bob",
    dob := "1990-03-14", email := "", phone := "",
    category := "TAX", priority := "LOW" }

/-- Second retry row; its one Batch Result is a success. -/
def exRowB : CSVRow :=
  { rowIndex := JsVal.num 1, case_id := "B", applicant_name := "Eve",
    dob := "1991-05-20", email := "", phone := "",
    category := "PERMIT", priority := "HIGH" }

/-- Accumulated results: row A failed, row B succeeded. -/
def exRetryResults : List BatchResult :=
  [{ success := false, caseId := "A", error := some "duplicate case id" },
   { success := true, caseId := "B", id := some "srv-1" }]

/-- Import state holding one row whose applicant name needs only a trim
(`"John Doe "`), for the fix-all counterexample. -/
def exFixState : ImportState :=
  { rawData := [{ rowIndex := JsVal.num 0, case_id := "A1", applicant_name := "John Doe ",
                  dob := "1990-03-14", email := "", phone := "",
                  category := "TAX", priority := "LOW" }]
    headers := ["case_id", "applicant_name", "dob", "email", "phone",
                "category", "priority"]
    filename := some "import.csv"
    validationErrors := []
    importId := none
    progress := none
    batchResults := []
    isSubmitting := false }

/-- A small store state for witnesses of the frame properties. -/
def exState : ImportState :=
  { rawData := [exRowA, exRowB]
    headers := []
    filename := none
    validationErrors := []
    importId := none
    progress := none
    batchResults := []
    isSubmitting := false }

/-! ## Helper lemmas -/

set_option maxRecDepth 10000

theorem lookupAssoc_setAssoc_same (e : List (String × String)) (f v : String) :
    lookupAssoc (setAssoc e f v) f = v := by
  induction e with
  | nil => simp [setAssoc, lookupAssoc]
  | cons kv rest ih =>
      obtain ⟨k, w⟩ := kv
      by_cases h : k = f
      · simp [setAssoc, lookupAssoc, h]
      · simp [setAssoc, lookupAssoc, h, ih]

theorem lookupAssoc_setAssoc_ne (e : List (String × String)) (f g v : String)
    (h : g ≠ f) : lookupAssoc (setAssoc e f v) g = lookupAssoc e g := by
  induction e with
  | nil => simp [setAssoc, lookupAssoc, if_neg (Ne.symm h)]
  | cons kv rest ih =>
      obtain ⟨k, w⟩ := kv
      by_cases hk : k = f
      · subst hk
        simp [setAssoc, lookupAssoc, if_neg (Ne.symm h)]
      · simp only [setAssoc, if_neg hk, lookupAssoc]
        by_cases hg : k = g
        · simp [hg]
        · simp [hg, ih]

theorem setField_rowIndex (r : CSVRow) (f v : String) (h : f ≠ "_rowIndex") :
    (setField r f v).rowIndex = r.rowIndex := by
  rw [setField, if_neg h]
  split_ifs <;> rfl

theorem setAssoc_absorb (e : List (String × String)) (f v w : String) :
    setAssoc (setAssoc e f v) f w = setAssoc e f w := by
  induction e with
  | nil => simp [setAssoc]
  | cons kv rest ih =>
      obtain ⟨k, w'⟩ := kv
      by_cases h : k = f
      · simp [setAssoc, h]
      · simp [setAssoc, h, ih]

theorem setField_setField (r : CSVRow) (f v w : String) :
    setField (setField r f v) f w = setField r f w := by
  by_cases h0 : f = "_rowIndex"
  · subst h0; simp [setField]
  by_cases h1 : f = "case_id"
  · subst h1; simp [setField]
  by_cases h2 : f = "applicant_name"
  · subst h2; simp [setField]
  by_cases h3 : f = "dob"
  · subst h3; simp [setField]
  by_cases h4 : f = "email"
  · subst h4; simp [setField]
  by_cases h5 : f = "phone"
  · subst h5; simp [setField]
  by_cases h6 : f = "category"
  · subst h6; simp [setField]
  by_cases h7 : f = "priority"
  · subst h7; simp [setField]
  · simp [setField, h0, h1, h2, h3, h4, h5, h6, h7, setAssoc_absorb]

theorem getField_setField_same (r : CSVRow) (f v : String)
    (hf : f ≠ "_rowIndex") : getField (setField r f v) f = v := by
  by_cases h1 : f = "case_id"
  · subst h1; simp [getField, setField]
  by_cases h2 : f = "applicant_name"
  · subst h2; simp [getField, setField]
  by_cases h3 : f = "dob"
  · subst h3; simp [getField, setField]
  by_cases h4 : f = "email"
  · subst h4; simp [getField, setField]
  by_cases h5 : f = "phone"
  · subst h5; simp [getField, setField]
  by_cases h6 : f = "category"
  · subst h6; simp [getField, setField]
  by_cases h7 : f = "priority"
  · subst h7; simp [getField, setField]
  · simp [getField, setField, hf, h1, h2, h3, h4, h5, h6, h7,
      lookupAssoc_setAssoc_same]

theorem getField_setField_ne (r : CSVRow) (f g v : String) (h : g ≠ f) :
    getField (setField r f v) g = getField r g := by
  by_cases h0 : f = "_rowIndex"
  · subst h0
    rw [setField, if_pos rfl]
    rfl
  by_cases h1 : f = "case_id"
  · subst h1; simp [getField, setField, if_neg h]
  by_cases h2 : f = "applicant_name"
  · subst h2; simp [getField, setField, if_neg h]
  by_cases h3 : f = "dob"
  · subst h3; simp [getField, setField, if_neg h]
  by_cases h4 : f = "email"
  · subst h4; simp [getField, setField, if_neg h]
  by_cases h5 : f = "phone"
  · subst h5; simp [getField, setField, if_neg h]
  by_cases h6 : f = "category"
  · subst h6; simp [getField, setField, if_neg h]
  by_cases h7 : f = "priority"
  · subst h7; simp [getField, setField, if_neg h]
  · -- `f` is not a canonical column: only `extra` changes
    have hx : setField r f v = { r with extra := setAssoc r.extra f v } := by
      simp [setField, h0, h1, h2, h3, h4, h5, h6, h7]
    rw [hx]
    by_cases hg1 : g = "case_id"
    · subst hg1; simp [getField]
    by_cases hg2 : g = "applicant_name"
    · subst hg2; simp [getField]
    by_cases hg3 : g = "dob"
    · subst hg3; simp [getField]
    by_cases hg4 : g = "email"
    · subst hg4; simp [getField]
    by_cases hg5 : g = "phone"
    · subst hg5; simp [getField]
    by_cases hg6 : g = "category"
    · subst hg6; simp [getField]
    by_cases hg7 : g = "priority"
    · subst hg7; simp [getField]
    · simp only [getField, if_neg hg1, if_neg hg2, if_neg hg3, if_neg hg4,
        if_neg hg5, if_neg hg6, if_neg hg7]
      exact lookupAssoc_setAssoc_ne r.extra f g v h

theorem map_rowIndex_updateRow (rows : List CSVRow) (i : Nat) (f v : String)
    (hf : f ≠ "_rowIndex") :
    (rows.map (fun row =>
        if row.rowIndex = JsVal.num i then setField row f v else row)).map
        CSVRow.rowIndex = rows.map CSVRow.rowIndex := by
  induction rows with
  | nil => rfl
  | cons row rest ih =>
      by_cases h : row.rowIndex = JsVal.num i <;>
        simp [h, setField_rowIndex _ _ _ hf, ih]

theorem map_rowIndex_applyUpdate (rows : List CSVRow) (u : RowUpdate)
    (hf : u.field ≠ "_rowIndex") :
    (applyUpdate rows u).map CSVRow.rowIndex = rows.map CSVRow.rowIndex := by
  induction rows with
  | nil => rfl
  | cons row rest ih =>
      by_cases h : row.rowIndex = u.rowIndex <;>
        simp [applyUpdate, h, setField_rowIndex _ _ _ hf, ih]

theorem map_rowIndex_foldl (us : List RowUpdate) (rows : List CSVRow)
    (hf : ∀ u ∈ us, u.field ≠ "_rowIndex") :
    (us.foldl applyUpdate rows).map CSVRow.rowIndex = rows.map CSVRow.rowIndex := by
  induction us generalizing rows with
  | nil => rfl
  | cons u rest ih =>
      rw [List.foldl_cons,
        ih (applyUpdate rows u) (fun x hx => hf x (List.mem_cons_of_mem u hx)),
        map_rowIndex_applyUpdate rows u (hf u (List.mem_cons_self u rest))]

theorem applyUpdate_no_match (rows : List CSVRow) (u : RowUpdate)
    (h : ∀ r ∈ rows, r.rowIndex ≠ u.rowIndex) : applyUpdate rows u = rows := by
  induction rows with
  | nil => rfl
  | cons row rest ih =>
      have hrow := h row (List.mem_cons_self row rest)
      simp only [applyUpdate, if_neg hrow]
      rw [ih (fun r hr => h r (List.mem_cons_of_mem row hr))]

theorem applyUpdate_absorb (rows : List CSVRow) (k : JsVal) (f v w : String)
    (hf : f ≠ "_rowIndex") :
    applyUpdate (applyUpdate rows ⟨k, f, v⟩) ⟨k, f, w⟩ =
      applyUpdate rows ⟨k, f, w⟩ := by
  induction rows with
  | nil => rfl
  | cons row rest ih =>
      by_cases h : row.rowIndex = k
      · simp [applyUpdate, h, setField_rowIndex _ _ _ hf, setField_setField]
      · simp [applyUpdate, h, ih]

theorem map_if_no_match (rows : List CSVRow) (i : Nat) (f v : String)
    (h : ∀ r ∈ rows, r.rowIndex ≠ JsVal.num i) :
    rows.map (fun row =>
      if row.rowIndex = JsVal.num i then setField row f v else row) = rows := by
  induction rows with
  | nil => rfl
  | cons row rest ih =>
      have hrow := h row (List.mem_cons_self row rest)
      simp only [List.map_cons, if_neg hrow]
      rw [ih (fun r hr => h r (List.mem_cons_of_mem row hr))]

theorem updateMultipleRows_nil (s : ImportState) : updateMultipleRows s [] = s := rfl

theorem updateMultipleRows_append (s : ImportState) (us vs : List RowUpdate) :
    updateMultipleRows s (us ++ vs) =
      updateMultipleRows (updateMultipleRows s us) vs := by
  simp [updateMultipleRows, List.foldl_append]

theorem runOp_eq (st : ImportState) (us : List RowUpdate) :
    runOp st us = (us.length, updateMultipleRows st us) := by
  cases us <;> simp [runOp, updateMultipleRows]

/-! ## Claims -/

/-- C8: `normalizePhone` trims its input and returns `none` for blank
input; a trimmed input valid for default region India yields its E.164
form; when both the regional and the generic international interpretation
fail it returns `none`; and on the concrete inputs, `"9876543210"`
normalizes to `"+919876543210"`, `"+919876543210"` to itself, and `""`
and `"12345"` to `none`. -/
theorem c8_normalize_phone :
    (∀ s, trimStr s = "" → normalizePhone s = none) ∧
    normalizePhone "9876543210" = some "+919876543210" ∧
    normalizePhone "+919876543210" = some "+919876543210" ∧
    normalizePhone "" = none ∧
    normalizePhone "12345" = none ∧
    (∀ s, trimStr s ≠ "" → isValidPhoneNumberIN (trimStr s) = true →
      normalizePhone s = some (formatE164 (trimStr s))) ∧
    (∀ s, trimStr s ≠ "" → isValidPhoneNumberIN (trimStr s) = false →
      validInternational (trimStr s) = false → normalizePhone s = none) := by
  refine ⟨fun s h => by simp [normalizePhone, h], by decide, by decide, by decide,
    by decide, fun s h hv => ?_, fun s h hv hi => ?_⟩
  · simp [normalizePhone, h, hv]
  · simp [normalizePhone, h, hv, hi]

/-- Witness for C8 at concrete inputs with the hypotheses discharged. -/
theorem c8_normalize_phone_witness :
    (trimStr "   " = "" ∧ normalizePhone "   " = none) ∧
    (trimStr " 9876543210 " ≠ "" ∧
      normalizePhone " 9876543210 " = some (formatE164 (trimStr " 9876543210 "))) :=
  ⟨⟨by decide, c8_normalize_phone.1 "   " (by decide)⟩,
   ⟨by decide, (c8_normalize_phone.2.2.2.2.2.1) " 9876543210 " (by decide) (by decide)⟩⟩

/-- C9 counterexample: `updateRow` called with field `"_rowIndex"` — a
call the string-typed API admits — overwrites the matching row's
`_rowIndex` property with the string value, so an update CAN change a
row's `_rowIndex`. -/
theorem c9_row_index_counterexample :
    exState.rawData.map CSVRow.rowIndex = [JsVal.num 0, JsVal.num 1] ∧
    (updateRow exState 0 "_rowIndex" "x").rawData.map CSVRow.rowIndex =
      [JsVal.str "x", JsVal.num 1] := by
  decide

/-- C9 amended: `setRawData` stamps each row's `_rowIndex` with its
0-based position (hence the indices are pairwise distinct), and no
subsequent `updateRow` or `updateMultipleRows` naming a field other than
`"_rowIndex"` — the only fields the application's call sites pass —
changes any row's `_rowIndex`. -/
theorem c9_row_index_amended :
    (∀ s data headers filename,
      ((setRawData s data headers filename).rawData.map CSVRow.rowIndex) =
        (List.range data.length).map JsVal.num) ∧
    (∀ s data headers filename,
      ((setRawData s data headers filename).rawData.map CSVRow.rowIndex).Nodup) ∧
    (∀ s i f v, f ≠ "_rowIndex" →
      ((updateRow s i f v).rawData.map CSVRow.rowIndex) =
        s.rawData.map CSVRow.rowIndex) ∧
    (∀ s us, (∀ u ∈ us, u.field ≠ "_rowIndex") →
      ((updateMultipleRows s us).rawData.map CSVRow.rowIndex) =
        s.rawData.map CSVRow.rowIndex) := by
  have hset : ∀ (s : ImportState) (data : List CSVRow) headers filename,
      ((setRawData s data headers filename).rawData.map CSVRow.rowIndex) =
        (List.range data.length).map JsVal.num := by
    intro s data headers filename
    simp only [setRawData, List.map_map]
    rw [show (CSVRow.rowIndex ∘
        fun p : Nat × CSVRow => { p.2 with rowIndex := JsVal.num p.1 })
        = (JsVal.num ∘ Prod.fst) from rfl]
    rw [← List.map_map, List.enum_map_fst data]
  refine ⟨hset, fun s data headers filename => ?_, fun s i f v hf => ?_,
    fun s us hf => ?_⟩
  · rw [hset]
    exact (List.nodup_range _).map (fun a b hab => JsVal.num.inj hab)
  · exact map_rowIndex_updateRow s.rawData i f v hf
  · exact map_rowIndex_foldl us s.rawData hf

/-- Witness for C9's amended claim: a concrete data-field update leaves
the indices unchanged. -/
theorem c9_row_index_amended_witness :
    ("phone" : String) ≠ "_rowIndex" ∧
    (updateRow exState 0 "phone" "z").rawData.map CSVRow.rowIndex =
      exState.rawData.map CSVRow.rowIndex :=
  ⟨by decide, c9_row_index_amended.2.2.1 exState 0 "phone" "z" (by decide)⟩

/-- C10 counterexample: for field `"_rowIndex"` the later of two edits to
the same row does NOT win — the first edit clobbers the `_rowIndex`
match key with a string, so `findIndex` misses for the second edit and it
is skipped — and `setField` with `"_rowIndex"` changes the row's index,
refuting the all-fields frame equalities. -/
theorem c10_update_frame_counterexample :
    (setField exRowA "_rowIndex" "x").rowIndex = JsVal.str "x" ∧
    exRowA.rowIndex = JsVal.num 0 ∧
    (updateMultipleRows exState
        [⟨JsVal.num 0, "_rowIndex", "x"⟩, ⟨JsVal.num 0, "_rowIndex", "y"⟩]).rawData.map
        CSVRow.rowIndex = [JsVal.str "x", JsVal.num 1] ∧
    (updateMultipleRows exState
        [⟨JsVal.num 0, "_rowIndex", "y"⟩]).rawData.map CSVRow.rowIndex =
      [JsVal.str "y", JsVal.num 1] := by
  decide

/-- C10 amended: for every field other than `"_rowIndex"` (the only
fields the application's call sites pass), `updateRow` rewrites exactly
the rows whose `_rowIndex` matches the number argument, replacing only
the named field (`getField`/`setField` agree on every other field and on
the index) and leaving the state unchanged when no row matches;
`updateMultipleRows` applies its edits in order, the later of two edits
to the same row and non-index field wins, and an edit naming an absent
`_rowIndex` is skipped. -/
theorem c10_update_frame_amended :
    (∀ r f v, f ≠ "_rowIndex" → getField (setField r f v) f = v) ∧
    (∀ r f g v, g ≠ f → getField (setField r f v) g = getField r g) ∧
    (∀ r f v, f ≠ "_rowIndex" → (setField r f v).rowIndex = r.rowIndex) ∧
    (∀ (s : ImportState) (i : Nat) (f v : String) (j : Nat),
      ((updateRow s i f v).rawData[j]?) =
      (s.rawData[j]?).map (fun r =>
        if r.rowIndex = JsVal.num i then setField r f v else r)) ∧
    (∀ s i f v, (∀ r ∈ s.rawData, r.rowIndex ≠ JsVal.num i) →
      updateRow s i f v = s) ∧
    (∀ s us, updateMultipleRows s us =
      us.foldl (fun t u => { t with rawData := applyUpdate t.rawData u }) s) ∧
    (∀ s k f v w us, f ≠ "_rowIndex" →
      updateMultipleRows s (⟨k, f, v⟩ :: ⟨k, f, w⟩ :: us) =
        updateMultipleRows s (⟨k, f, w⟩ :: us)) ∧
    (∀ s u us, (∀ r ∈ s.rawData, r.rowIndex ≠ u.rowIndex) →
      updateMultipleRows s (u :: us) = updateMultipleRows s us) := by
  refine ⟨fun r f v hf => getField_setField_same r f v hf,
    fun r f g v h => getField_setField_ne r f g v h,
    fun r f v hf => setField_rowIndex r f v hf,
    fun s i f v j => ?_, fun s i f v h => ?_, fun s us => ?_,
    fun s k f v w us hf => ?_, fun s u us h => ?_⟩
  · simp [updateRow]
  · show { s with rawData := _ } = s
    rw [map_if_no_match s.rawData i f v h]
  · induction us generalizing s with
    | nil => rfl
    | cons u rest ih =>
        rw [List.foldl_cons]
        rw [show updateMultipleRows s (u :: rest) =
          updateMultipleRows { s with rawData := applyUpdate s.rawData u } rest from rfl]
        exact ih { s with rawData := applyUpdate s.rawData u }
  · show ({ s with rawData := _ } : ImportState) = { s with rawData := _ }
    rw [show ((⟨k, f, v⟩ : RowUpdate) :: ⟨k, f, w⟩ :: us).foldl applyUpdate s.rawData
        = us.foldl applyUpdate (applyUpdate (applyUpdate s.rawData ⟨k, f, v⟩) ⟨k, f, w⟩)
        from rfl]
    rw [applyUpdate_absorb s.rawData k f v w hf]
    rfl
  · show ({ s with rawData := _ } : ImportState) = { s with rawData := _ }
    rw [show ((u :: us).foldl applyUpdate s.rawData)
        = us.foldl applyUpdate (applyUpdate s.rawData u) from rfl]
    rw [applyUpdate_no_match s.rawData u h]

/-- Witness for C10's amended claim: the frame properties applied at a
concrete state, with the hypotheses discharged. -/
theorem c10_update_frame_amended_witness :
    getField (setField exRowA "email" "x") "email" = "x" ∧
    getField (setField exRowA "email" "x") "phone" = getField exRowA "phone" ∧
    updateRow exState 99 "phone" "z" = exState :=
  ⟨c10_update_frame_amended.1 exRowA "email" "x" (by decide),
   c10_update_frame_amended.2.1 exRowA "email" "phone" "x" (by decide),
   c10_update_frame_amended.2.2.2.2.1 exState 99 "phone" "z" (by decide)⟩

/-- C1 counterexample: with accumulated results `[A failed, B succeeded]`
over the two error-free rows A and B, `retryFailed` resubmits row B even
though B's latest Batch Result is a success — refuting "no row whose
latest result was a success is resubmitted". -/
theorem c1_retry_counterexample :
    exRowB ∈ retrySubmittedRows [exRowA, exRowB] [] exRetryResults ∧
    latestResultFor exRetryResults exRowB.case_id =
      some { success := true, caseId := "B", error := none, id := some "srv-1" } := by
  decide

/-- C1 amended: when at least one row's case id matches a failed
accumulated Batch Result, `retryFailed` re-runs the full submission over
every currently error-free row (the same set a fresh submission would
use), not just the failed subset; in particular every error-free row
matching a failed result is resubmitted. -/
theorem c1_retry_amended (rawData : List CSVRow) (errors : List ValidationError)
    (results : List BatchResult) (h : rowsToRetry rawData results ≠ []) :
    retrySubmittedRows rawData errors results = validRowsOf rawData errors ∧
    ∀ row ∈ rawData, (failedCaseIds results).contains row.case_id = true →
      (errors.any (fun e => JsVal.num e.row = row.rowIndex)) = false →
      row ∈ retrySubmittedRows rawData errors results := by
  have hne : (rowsToRetry rawData results).isEmpty = false := by
    cases hr : rowsToRetry rawData results with
    | nil => exact absurd hr h
    | cons a l => rfl
  have heq : retrySubmittedRows rawData errors results = validRowsOf rawData errors := by
    simp [retrySubmittedRows, hne]
  refine ⟨heq, fun row hrow hfail hval => ?_⟩
  rw [heq]
  exact List.mem_filter.mpr ⟨hrow, by simp [hval]⟩

/-- Witness for C1's amended claim at the concrete retry scenario. -/
theorem c1_retry_amended_witness :
    rowsToRetry [exRowA, exRowB] exRetryResults ≠ [] ∧
    retrySubmittedRows [exRowA, exRowB] [] exRetryResults =
      validRowsOf [exRowA, exRowB] [] :=
  ⟨by decide, (c1_retry_amended [exRowA, exRowB] [] exRetryResults (by decide)).1⟩

/-- C3 counterexample: for a row whose applicant name `"John Doe "` needs
only a trim, the code's fix-all returns 2 (trim counts it, and title-case
— reading the stale pre-trim snapshot — counts it again), while the
claimed semantics (later operations observing earlier edits) returns 1:
the code's later operations do not observe the earlier operations'
values, and the returned total double-counts the single changed cell. -/
theorem c3_fix_all_counterexample :
    (fixAll exFixState).1 = 2 ∧ (fixAllSpec exFixState).1 = 1 ∧
    trimWhitespaceUpdates exFixState.rawData =
      [⟨JsVal.num 0, "applicant_name", "John Doe"⟩] := by
  decide

/-- C3 amended: fix-all applies the four operations in the stated order
trim, title-case, phones, priority and returns the sum of their edit
counts, but every operation computes its edits against the row snapshot
from the start of the invocation; the committed edits are exactly the
four edit lists applied in order (later commits overwriting earlier ones
where they touch the same cell). -/
theorem c3_fix_all_amended (st : ImportState) :
    fixAll st =
      ((trimWhitespaceUpdates st.rawData).length +
        (titleCaseNamesUpdates st.rawData).length +
        (normalizePhonesUpdates st.rawData).length +
        (setDefaultPriorityUpdates st.rawData).length,
       updateMultipleRows st
         (trimWhitespaceUpdates st.rawData ++ titleCaseNamesUpdates st.rawData ++
          normalizePhonesUpdates st.rawData ++ setDefaultPriorityUpdates st.rawData)) := by
  simp only [fixAll, runOp_eq]
  rw [updateMultipleRows_append, updateMultipleRows_append, updateMultipleRows_append]

/-! ## Batch submitter lemmas -/

theorem runBatches_false_foldl (rows : List CSVRow) (tb : Nat)
    (outcomes : Nat → BatchOutcome) (l : List Nat) (st : SubmissionState) :
    runBatches false rows tb outcomes l st =
      l.foldl (processBatch rows tb outcomes) st := by
  induction l generalizing st with
  | nil => rfl
  | cons i rest ih => simp [runBatches, List.foldl_cons, ih]

theorem foldl_processBatch_batchResults (rows : List CSVRow) (tb : Nat)
    (outcomes : Nat → BatchOutcome) (l : List Nat) (st : SubmissionState) :
    (l.foldl (processBatch rows tb outcomes) st).batchResults =
      st.batchResults ++ l.flatMap (recordedResults rows outcomes) := by
  induction l generalizing st with
  | nil => simp
  | cons i rest ih =>
      rw [List.foldl_cons, ih]
      cases h : outcomes i <;>
        simp [processBatch, recordedResults, h, List.append_assoc]

theorem processBatch_progress (rows : List CSVRow) (tb : Nat)
    (outcomes : Nat → BatchOutcome) (st : SubmissionState) (i : Nat) :
    ∃ su fa, (processBatch rows tb outcomes st i).progress =
      some { total := rows.length,
             processed := min (i * BATCH_SIZE + BATCH_SIZE) rows.length,
             success := su, failed := fa, currentBatch := i + 1,
             totalBatches := tb } := by
  cases h : outcomes i with
  | transportFail =>
      exact ⟨st.successCount, st.failedCount + (batchOf rows i).length,
        by simp [processBatch, h]⟩
  | ok results =>
      exact ⟨st.successCount + (results.filter (fun r => r.success)).length,
        st.failedCount + (results.filter (fun r => !r.success)).length,
        by simp [processBatch, h]⟩

theorem totalBatches_facts (n : Nat) (h : 0 < n) :
    0 < totalBatchesOf n ∧ n ≤ totalBatchesOf n * BATCH_SIZE ∧
      (totalBatchesOf n - 1) * BATCH_SIZE < n := by
  have hdm := Nat.div_add_mod (n + BATCH_SIZE - 1) BATCH_SIZE
  have hml : (n + BATCH_SIZE - 1) % BATCH_SIZE < BATCH_SIZE :=
    Nat.mod_lt _ (by simp [BATCH_SIZE])
  simp only [totalBatchesOf, BATCH_SIZE] at hdm hml ⊢
  omega

theorem batchOf_length (rows : List CSVRow) (i : Nat) :
    (batchOf rows i).length = min BATCH_SIZE (rows.length - i * BATCH_SIZE) := by
  simp [batchOf]

theorem flatMap_batchOf_take (rows : List CSVRow) (k : Nat) :
    (List.range k).flatMap (batchOf rows) = rows.take (k * BATCH_SIZE) := by
  induction k with
  | zero => simp
  | succ k ih =>
      rw [List.range_succ k, List.flatMap_append, ih, Nat.succ_mul,
        List.take_add]
      simp [batchOf]

theorem startSubmission_false_eq (rawData : List CSVRow)
    (errors : List ValidationError) (outcomes : Nat → BatchOutcome)
    (h : 0 < (validRowsOf rawData errors).length) :
    startSubmission false rawData errors outcomes =
      some ((List.range (totalBatchesOf (validRowsOf rawData errors).length)).foldl
          (processBatch (validRowsOf rawData errors)
            (totalBatchesOf (validRowsOf rawData errors).length) outcomes)
          { progress := some
              { total := (validRowsOf rawData errors).length, processed := 0,
                success := 0, failed := 0, currentBatch := 0,
                totalBatches := totalBatchesOf (validRowsOf rawData errors).length }
            batchResults := [], successCount := 0, failedCount := 0 },
        "COMPLETED") := by
  rw [startSubmission]
  simp only [if_neg (Nat.pos_iff_ne_zero.mp h)]
  rw [runBatches_false_foldl]
  rfl

/-! ## Batch submitter claims -/

/-- C4: for `n > 0` error-free rows the submitter partitions them into
`ceil(n / 100)` contiguous batches in ascending positional order — their
concatenation in batch order is exactly the row list — each full-sized
except a final batch of `n - (tb-1)·100 ∈ (0, 100]` rows, and after
exhausting all batches the processed counter equals `n` and the current
batch counter equals the batch count, for every outcome environment. -/
theorem c4_batch_partition (rawData : List CSVRow) (errors : List ValidationError)
    (outcomes : Nat → BatchOutcome)
    (h : 0 < (validRowsOf rawData errors).length) :
    (List.range (totalBatchesOf (validRowsOf rawData errors).length)).flatMap
        (batchOf (validRowsOf rawData errors)) = validRowsOf rawData errors ∧
    (∀ i, i + 1 < totalBatchesOf (validRowsOf rawData errors).length →
      (batchOf (validRowsOf rawData errors) i).length = BATCH_SIZE) ∧
    0 < (batchOf (validRowsOf rawData errors)
          (totalBatchesOf (validRowsOf rawData errors).length - 1)).length ∧
    (batchOf (validRowsOf rawData errors)
        (totalBatchesOf (validRowsOf rawData errors).length - 1)).length =
      (validRowsOf rawData errors).length -
        (totalBatchesOf (validRowsOf rawData errors).length - 1) * BATCH_SIZE ∧
    (batchOf (validRowsOf rawData errors)
        (totalBatchesOf (validRowsOf rawData errors).length - 1)).length ≤ BATCH_SIZE ∧
    ∃ st prog, startSubmission false rawData errors outcomes = some (st, "COMPLETED") ∧
      st.progress = some prog ∧
      prog.processed = (validRowsOf rawData errors).length ∧
      prog.currentBatch = totalBatchesOf (validRowsOf rawData errors).length ∧
      prog.totalBatches = totalBatchesOf (validRowsOf rawData errors).length := by
  rw [startSubmission_false_eq rawData errors outcomes h]
  revert h
  generalize validRowsOf rawData errors = rows
  intro h
  obtain ⟨htb0, hle, hlt⟩ := totalBatches_facts rows.length h
  have hbridge : (totalBatchesOf rows.length - 1) * BATCH_SIZE + BATCH_SIZE =
      totalBatchesOf rows.length * BATCH_SIZE := by
    obtain ⟨m, hm⟩ : ∃ m, totalBatchesOf rows.length = m + 1 :=
      ⟨totalBatchesOf rows.length - 1, by omega⟩
    rw [hm, Nat.add_sub_cancel]
    ring
  refine ⟨?_, ?_, ?_, ?_, ?_, ?_⟩
  · rw [flatMap_batchOf_take]
    exact List.take_of_length_le (by omega)
  · intro i hi
    rw [batchOf_length]
    have h1 : (i + 1) * BATCH_SIZE ≤ (totalBatchesOf rows.length - 1) * BATCH_SIZE :=
      Nat.mul_le_mul_right _ (by omega)
    have h2 : (i + 1) * BATCH_SIZE = i * BATCH_SIZE + BATCH_SIZE := by ring
    omega
  · rw [batchOf_length]; omega
  · rw [batchOf_length]; omega
  · rw [batchOf_length]; omega
  · obtain ⟨m, hm⟩ : ∃ m, totalBatchesOf rows.length = m + 1 :=
      ⟨totalBatchesOf rows.length - 1, by omega⟩
    rw [hm, List.range_succ m, List.foldl_append]
    simp only [List.foldl_cons, List.foldl_nil]
    obtain ⟨su, fa, hprog⟩ := processBatch_progress rows (m + 1) outcomes
      (List.foldl (processBatch rows (m + 1) outcomes) _ (List.range m)) m
    refine ⟨_, _, rfl, hprog, ?_, rfl, rfl⟩
    show min (m * BATCH_SIZE + BATCH_SIZE) rows.length = rows.length
    have h3 : (m + 1) * BATCH_SIZE = m * BATCH_SIZE + BATCH_SIZE := by ring
    rw [hm] at hle
    omega

/-- Witness for C4 at 250 error-free rows: 3 batches of sizes 100, 100
and 50, processed = 250 (here under an all-transport-fail environment). -/
theorem c4_batch_partition_witness :
    0 < (validRowsOf raw250 []).length ∧
    totalBatchesOf (validRowsOf raw250 []).length = 3 ∧
    (batchOf (validRowsOf raw250 []) 0).length = 100 ∧
    (batchOf (validRowsOf raw250 []) 1).length = 100 ∧
    (batchOf (validRowsOf raw250 []) 2).length = 50 ∧
    ((List.range (totalBatchesOf (validRowsOf raw250 []).length)).flatMap
        (batchOf (validRowsOf raw250 [])) = validRowsOf raw250 [] ∧
      (∀ i, i + 1 < totalBatchesOf (validRowsOf raw250 []).length →
        (batchOf (validRowsOf raw250 []) i).length = BATCH_SIZE) ∧
      0 < (batchOf (validRowsOf raw250 [])
            (totalBatchesOf (validRowsOf raw250 []).length - 1)).length ∧
      (batchOf (validRowsOf raw250 [])
          (totalBatchesOf (validRowsOf raw250 []).length - 1)).length =
        (validRowsOf raw250 []).length -
          (totalBatchesOf (validRowsOf raw250 []).length - 1) * BATCH_SIZE ∧
      (batchOf (validRowsOf raw250 [])
          (totalBatchesOf (validRowsOf raw250 []).length - 1)).length ≤ BATCH_SIZE ∧
      ∃ st prog,
        startSubmission false raw250 [] (fun _ => BatchOutcome.transportFail) =
          some (st, "COMPLETED") ∧
        st.progress = some prog ∧
        prog.processed = (validRowsOf raw250 []).length ∧
        prog.currentBatch = totalBatchesOf (validRowsOf raw250 []).length ∧
        prog.totalBatches = totalBatchesOf (validRowsOf raw250 []).length) :=
  ⟨by decide, by decide, by decide, by decide, by decide,
   c4_batch_partition raw250 [] (fun _ => BatchOutcome.transportFail) (by decide)⟩

/-- C5: when batch `k`'s request fails at the transport level, the
accumulated results consist of the earlier batches' recorded results,
then one failed result per row of batch `k` carrying the generic
"Network error - please retry" message, then the recorded results of all
later batches — which therefore still execute, and the run still reaches
the final batch counter. -/
theorem c5_transport_failure_isolated (rawData : List CSVRow)
    (errors : List ValidationError) (outcomes : Nat → BatchOutcome) (k : Nat)
    (h : 0 < (validRowsOf rawData errors).length)
    (hk : k < totalBatchesOf (validRowsOf rawData errors).length)
    (hfail : outcomes k = BatchOutcome.transportFail) :
    ∃ st, startSubmission false rawData errors outcomes = some (st, "COMPLETED") ∧
      st.batchResults =
        (List.range k).flatMap
          (recordedResults (validRowsOf rawData errors) outcomes) ++
        (batchOf (validRowsOf rawData errors) k).map transportFailResult ++
        (List.range' (k + 1)
            (totalBatchesOf (validRowsOf rawData errors).length - (k + 1))).flatMap
          (recordedResults (validRowsOf rawData errors) outcomes) ∧
      ∃ prog, st.progress = some prog ∧
        prog.currentBatch = totalBatchesOf (validRowsOf rawData errors).length := by
  rw [startSubmission_false_eq rawData errors outcomes h]
  revert h hk
  generalize validRowsOf rawData errors = rows
  intro h hk
  refine ⟨_, rfl, ?_, ?_⟩
  · rw [foldl_processBatch_batchResults]
    have hsplit : List.range (totalBatchesOf rows.length) =
        (List.range k ++ [k]) ++
          List.range' (k + 1) (totalBatchesOf rows.length - (k + 1)) := by
      rw [← List.range_succ k]
      rw [List.range_eq_range' (totalBatchesOf rows.length),
        List.range_eq_range' (k + 1)]
      have hap := List.range'_append 0 (k + 1)
        (totalBatchesOf rows.length - (k + 1)) 1
      rw [show 0 + 1 * (k + 1) = k + 1 by ring] at hap
      rw [hap]
      congr 1
      omega
    rw [hsplit, List.flatMap_append, List.flatMap_append]
    simp [recordedResults, hfail, List.append_assoc]
  · obtain ⟨m, hm⟩ : ∃ m, totalBatchesOf rows.length = m + 1 :=
      ⟨totalBatchesOf rows.length - 1, by omega⟩
    rw [hm, List.range_succ m, List.foldl_append]
    simp only [List.foldl_cons, List.foldl_nil]
    obtain ⟨su, fa, hprog⟩ := processBatch_progress rows (m + 1) outcomes
      (List.foldl (processBatch rows (m + 1) outcomes) _ (List.range m)) m
    exact ⟨_, hprog, rfl⟩

/-- Witness for C5: three batches over 250 rows with batch 1 (the middle
batch) failing at the transport level. -/
theorem c5_transport_failure_isolated_witness :
    0 < (validRowsOf raw250 []).length ∧
    1 < totalBatchesOf (validRowsOf raw250 []).length ∧
    (∃ st, startSubmission false raw250 []
          (fun i => if i = 1 then BatchOutcome.transportFail else BatchOutcome.ok [])
        = some (st, "COMPLETED") ∧
      st.batchResults =
        (List.range 1).flatMap
          (recordedResults (validRowsOf raw250 [])
            (fun i => if i = 1 then BatchOutcome.transportFail else BatchOutcome.ok [])) ++
        (batchOf (validRowsOf raw250 []) 1).map transportFailResult ++
        (List.range' 2 (totalBatchesOf (validRowsOf raw250 []).length - 2)).flatMap
          (recordedResults (validRowsOf raw250 [])
            (fun i => if i = 1 then BatchOutcome.transportFail else BatchOutcome.ok [])) ∧
      ∃ prog, st.progress = some prog ∧
        prog.currentBatch = totalBatchesOf (validRowsOf raw250 []).length) :=
  ⟨by decide, by decide,
   c5_transport_failure_isolated raw250 []
     (fun i => if i = 1 then BatchOutcome.transportFail else BatchOutcome.ok [])
     1 (by decide) (by decide) (by decide)⟩

/-- C2 (code-bug evaluation): over 101 error-free rows (two batches), a
run started uncancelled runs both batches and PATCHes the import record
`"COMPLETED"` — the in-flight loop reads the `isCancelled` value captured
by its closure, so a cancellation requested after batch 1 cannot stop it
— whereas under the spec's cancellation semantics the same request stops
the run after one batch and finalizes `"FAILED"`. -/
theorem c2_cancellation_ignored :
    (startSubmission false raw101 [] okEmptyOutcomes).map
        (fun p => (p.1.progress.map ImportProgress.currentBatch, p.2)) =
      some (some 2, "COMPLETED") ∧
    (startSubmissionSpec cancelAfterFirst raw101 [] okEmptyOutcomes).map
        (fun p => (p.1.progress.map ImportProgress.currentBatch, p.2)) =
      some (some 1, "FAILED") := by
  decide

/-! ## Validator lemmas -/

theorem mem_dupErrors_row {idx : Nat} {row : CSVRow} {seen : List (String × Nat)}
    {e : ValidationError} (h : e ∈ dupErrors idx row seen) : e.row = idx := by
  by_cases h1 : row.case_id ≠ ""
  · rw [dupErrors, if_pos h1] at h
    cases hl : lookupSeen seen row.case_id with
    | none => rw [hl] at h; simp at h
    | some first =>
        rw [hl] at h
        simp only [List.mem_singleton] at h
        rw [h]
  · rw [dupErrors, if_neg h1] at h
    simp at h

theorem mem_rowFieldErrors_row {today idx : Nat} {row : CSVRow}
    {e : ValidationError} (h : e ∈ rowFieldErrors today idx row) : e.row = idx := by
  obtain ⟨p, hp, rfl⟩ := List.mem_map.mp h
  rfl

theorem validateAux_row_bounds (today : Nat) : ∀ (l : List CSVRow) (idx : Nat)
    (seen : List (String × Nat)) (e : ValidationError),
    e ∈ validateAux today l idx seen → idx ≤ e.row ∧ e.row < idx + l.length := by
  intro l
  induction l with
  | nil => intro idx seen e h; simp [validateAux] at h
  | cons row rest ih =>
      intro idx seen e h
      rw [validateAux] at h
      rcases List.mem_append.mp h with h | h
      · rcases List.mem_append.mp h with h | h
        · have := mem_dupErrors_row h
          simp [this]
        · have := mem_rowFieldErrors_row h
          simp [this]
      · have := ih (idx + 1) (seenInsert seen row idx) e h
        constructor <;> [omega; (simp only [List.length_cons]; omega)]

theorem validateAux_pairwise (today : Nat) : ∀ (l : List CSVRow) (idx : Nat)
    (seen : List (String × Nat)),
    (validateAux today l idx seen).Pairwise (fun a b => a.row ≤ b.row) := by
  intro l
  induction l with
  | nil => intro idx seen; simp [validateAux]
  | cons row rest ih =>
      intro idx seen
      rw [validateAux]
      apply List.pairwise_append.mpr
      refine ⟨List.pairwise_append.mpr ⟨?_, ?_, ?_⟩,
        ih (idx + 1) (seenInsert seen row idx), ?_⟩
      · exact List.pairwise_of_forall_mem_list (fun a ha b hb => by
          rw [mem_dupErrors_row ha, mem_dupErrors_row hb])
      · exact List.pairwise_of_forall_mem_list (fun a ha b hb => by
          rw [mem_rowFieldErrors_row ha, mem_rowFieldErrors_row hb])
      · intro a ha b hb
        rw [mem_dupErrors_row ha, mem_rowFieldErrors_row hb]
      · intro a ha b hb
        have hb' := validateAux_row_bounds today rest (idx + 1) (seenInsert seen row idx) b hb
        rcases List.mem_append.mp ha with ha | ha
        · rw [mem_dupErrors_row ha]; omega
        · rw [mem_rowFieldErrors_row ha]; omega

theorem validateAux_append (today : Nat) : ∀ (p q : List CSVRow) (idx : Nat)
    (seen : List (String × Nat)),
    validateAux today (p ++ q) idx seen =
      validateAux today p idx seen ++
        validateAux today q (idx + p.length) (extendSeen seen idx p) := by
  intro p
  induction p with
  | nil => intro q idx seen; simp [validateAux, extendSeen]
  | cons r p' ih =>
      intro q idx seen
      rw [List.cons_append, validateAux, validateAux,
        ih q (idx + 1) (seenInsert seen r idx), extendSeen, List.length_cons,
        show idx + (p'.length + 1) = idx + 1 + p'.length from by omega]
      simp [List.append_assoc]

theorem lookup_append_single : ∀ (seen : List (String × Nat)) (k : String)
    (idx : Nat) (c : String),
    lookupSeen (seen ++ [(k, idx)]) c =
      match lookupSeen seen c with
      | some v => some v
      | none => if k = c then some idx else none := by
  intro seen
  induction seen with
  | nil => intro k idx c; rfl
  | cons kv rest ih =>
      intro k idx c
      obtain ⟨k', v'⟩ := kv
      by_cases h : k' = c
      · simp [lookupSeen, h]
      · simp [lookupSeen, h, ih]

theorem lookup_seenInsert (seen : List (String × Nat)) (row : CSVRow) (idx : Nat)
    (c : String) (hc : c ≠ "") :
    lookupSeen (seenInsert seen row idx) c =
      match lookupSeen seen c with
      | some v => some v
      | none => if row.case_id = c then some idx else none := by
  by_cases hd : row.case_id = ""
  · rw [seenInsert, if_neg (by simp [hd])]
    cases hl : lookupSeen seen c
    · simp [if_neg (show ¬ row.case_id = c from by rw [hd]; exact Ne.symm hc)]
    · rfl
  · cases hl : lookupSeen seen row.case_id with
    | none =>
        rw [seenInsert, if_pos (by simp [hd, hl]), lookup_append_single]
    | some v =>
        rw [seenInsert, if_neg (by simp [hd, hl])]
        cases hlc : lookupSeen seen c
        · have hne : row.case_id ≠ c := fun hcc => by
            rw [hcc, hlc] at hl; exact Option.noConfusion hl
          simp [if_neg hne]
        · rfl

theorem lookup_extendSeen (c : String) (hc : c ≠ "") : ∀ (p : List CSVRow)
    (seen : List (String × Nat)) (idx : Nat),
    lookupSeen (extendSeen seen idx p) c =
      match lookupSeen seen c with
      | some v => some v
      | none => (firstOcc c p).map (fun j => idx + j) := by
  intro p
  induction p with
  | nil =>
      intro seen idx
      rw [extendSeen, firstOcc]
      cases lookupSeen seen c <;> rfl
  | cons r p' ih =>
      intro seen idx
      rw [extendSeen, ih (seenInsert seen r idx) (idx + 1),
        lookup_seenInsert seen r idx c hc]
      cases hl : lookupSeen seen c with
      | some v => rfl
      | none =>
          by_cases hr : r.case_id = c
          · rw [if_pos hr, firstOcc, if_pos hr]
            simp
          · rw [if_neg hr, firstOcc, if_neg hr]
            cases ho : firstOcc c p'
            · rfl
            · simp [Nat.add_assoc, Nat.add_comm, Nat.add_left_comm]

theorem firstOcc_some_spec (c : String) : ∀ (rs : List CSVRow) (f : Nat),
    firstOcc c rs = some f →
      ∃ h : f < rs.length, rs[f].case_id = c ∧
        ∀ i (hi : i < rs.length), i < f → rs[i].case_id ≠ c := by
  intro rs
  induction rs with
  | nil => intro f h; simp [firstOcc] at h
  | cons a l ih =>
      intro f h
      by_cases ha : a.case_id = c
      · rw [firstOcc, if_pos ha] at h
        have hf : f = 0 := by simpa using h.symm
        subst hf
        exact ⟨by simp, by simpa using ha, fun i hi hif => by omega⟩
      · rw [firstOcc, if_neg ha] at h
        cases hl : firstOcc c l with
        | none => rw [hl] at h; simp at h
        | some g =>
            rw [hl] at h
            have hf : f = g + 1 := by simpa using h.symm
            subst hf
            obtain ⟨hg, hcg, hmin⟩ := ih g hl
            refine ⟨by simp [Nat.succ_lt_succ hg], by simpa using hcg, ?_⟩
            intro i hi hif
            cases i with
            | zero => simpa using ha
            | succ i' =>
                have hi' : i' < l.length := by simpa using hi
                simpa using hmin i' hi' (by omega)

theorem firstOcc_take (c : String) : ∀ (rs : List CSVRow) (f j : Nat),
    firstOcc c rs = some f → f < j → firstOcc c (rs.take j) = some f := by
  intro rs
  induction rs with
  | nil => intro f j h hj; simp [firstOcc] at h
  | cons a l ih =>
      intro f j h hj
      by_cases ha : a.case_id = c
      · rw [firstOcc, if_pos ha] at h
        have hf : f = 0 := by simpa using h.symm
        subst hf
        cases j with
        | zero => omega
        | succ j' => rw [List.take_succ_cons, firstOcc, if_pos ha]
      · rw [firstOcc, if_neg ha] at h
        cases hl : firstOcc c l with
        | none => rw [hl] at h; simp at h
        | some g =>
            rw [hl] at h
            have hf : f = g + 1 := by simpa using h.symm
            subst hf
            cases j with
            | zero => omega
            | succ j' =>
                rw [List.take_succ_cons, firstOcc, if_neg ha,
                  ih g j' hl (by omega)]
                rfl

theorem firstOcc_eq_none (c : String) : ∀ (l : List CSVRow),
    (∀ r ∈ l, r.case_id ≠ c) → firstOcc c l = none := by
  intro l
  induction l with
  | nil => intro h; rfl
  | cons a rest ih =>
      intro h
      rw [firstOcc, if_neg (h a (List.mem_cons_self a rest)),
        ih (fun r hr => h r (List.mem_cons_of_mem a hr))]
      rfl

theorem forall_mem_take_of_lt (P : CSVRow → Prop) : ∀ (rs : List CSVRow) (f : Nat),
    (∀ i (hi : i < rs.length), i < f → P rs[i]) → ∀ r ∈ rs.take f, P r := by
  intro rs
  induction rs with
  | nil => intro f h r hr; simp at hr
  | cons a l ih =>
      intro f h r hr
      cases f with
      | zero => simp at hr
      | succ f' =>
          rw [List.take_succ_cons] at hr
          rcases List.mem_cons.mp hr with rfl | hr
          · exact h 0 (by simp) (by omega)
          · exact ih f' (fun i hi hif => by
              simpa using h (i + 1) (by simpa using Nat.succ_lt_succ hi) (by omega)) r hr

/-! ## Validator claims -/

/-- C6 counterexample: for a single row with invalid category `"FOO"` and
invalid priority `"BAR"`, `validateData` emits the fields in the order
category, priority, category, priority (the supplementary category and
priority checks append after the schema issues), so the error list is not
ordered by field-declaration order within the row. -/
theorem c6_order_counterexample :
    ¬ (validateData exToday [exRowC6]).Pairwise specErrorOrder := by
  decide

/-- C6 amended: the Validator is a pure function of the row set — two
runs on the same rows give the same list — and the list is ordered by row
index ascending; within a row, however, the order is the duplicate check
first, then the schema issues in field-declaration order, then the
supplementary category and priority re-checks, which can repeat fields
out of declaration order. -/
theorem c6_validator_deterministic_sorted :
    (∀ today rows, validateData today rows = validateData today rows) ∧
    ∀ today rows, (validateData today rows).Pairwise (fun a b => a.row ≤ b.row) :=
  ⟨fun _ _ => rfl, fun today rows => validateAux_pairwise today rows 0 []⟩

/-- C7: in any row set, a row at position `j` whose nonempty case id
already occurred — with its first occurrence at position `f < j` — is
flagged with the duplicate error naming `f` (1-based in the message),
and the first occurrence itself carries only field-validation errors, no
duplicate error. -/
theorem c7_duplicate_case_id (today : Nat) (rs : List CSVRow) (j f : Nat)
    (hj : j < rs.length) (hc : rs[j].case_id ≠ "")
    (hf : firstOcc rs[j].case_id rs = some f) (hfj : f < j) :
    ({ row := j, field := "case_id", value := rs[j].case_id,
       message := dupMsg f } : ValidationError) ∈ validateData today rs ∧
    ∃ hfl : f < rs.length,
      ∀ e ∈ validateData today rs, e.row = f →
        e ∈ rowFieldErrors today f rs[f] := by
  have hfl : f < rs.length := lt_trans hfj hj
  have hlen : ∀ k, k ≤ rs.length → (rs.take k).length = k := fun k hk => by
    simp [List.length_take, Nat.min_eq_left hk]
  obtain ⟨hfl', hcfst, hmin⟩ := firstOcc_some_spec rs[j].case_id rs f hf
  constructor
  · -- membership of the duplicate error at position j
    have hsp := validateAux_append today (rs.take j) (rs.drop j) 0 []
    rw [List.take_append_drop] at hsp
    rw [validateData, hsp, hlen j hj.le, List.drop_eq_getElem_cons hj, validateAux]
    have hdup : dupErrors j rs[j] (extendSeen [] 0 (rs.take j)) =
        [{ row := j, field := "case_id", value := rs[j].case_id,
           message := dupMsg f }] := by
      rw [dupErrors, if_pos hc, lookup_extendSeen rs[j].case_id hc,
        firstOcc_take rs[j].case_id rs f j hf hfj]
      simp [lookupSeen]
    rw [Nat.zero_add, hdup]
    exact List.mem_append_right _ (List.mem_append_left _ (List.mem_append_left _
      (List.mem_singleton.mpr rfl)))
  · refine ⟨hfl, fun e he hrow => ?_⟩
    have hsp := validateAux_append today (rs.take f) (rs.drop f) 0 []
    rw [List.take_append_drop] at hsp
    rw [validateData, hsp, hlen f hfl.le, List.drop_eq_getElem_cons hfl,
      validateAux, Nat.zero_add] at he
    rcases List.mem_append.mp he with he | he
    · -- before position f: rows are < f
      have hb := validateAux_row_bounds today (rs.take f) 0 [] e he
      rw [hlen f hfl.le] at hb
      omega
    · rcases List.mem_append.mp he with he | he
      · rcases List.mem_append.mp he with he | he
        · -- position f itself: the duplicate part is empty
          exfalso
          have hnone : lookupSeen (extendSeen [] 0 (rs.take f)) rs[f].case_id = none := by
            rw [lookup_extendSeen rs[f].case_id (by rw [hcfst]; exact hc),
              firstOcc_eq_none rs[f].case_id (rs.take f)
                (forall_mem_take_of_lt (fun r => r.case_id ≠ rs[f].case_id) rs f
                  (fun i hi hif => by rw [hcfst]; exact hmin i hi hif))]
            rfl
          rw [dupErrors] at he
          by_cases h1 : rs[f].case_id ≠ ""
          · rw [if_pos h1, hnone] at he
            simp at he
          · rw [if_neg h1] at he
            simp at he
        · exact he
      · -- after position f: rows are > f
        have := validateAux_row_bounds today (rs.drop (f + 1)) (f + 1) _ e he
        omega

/-- Witness for C7: two rows sharing case id `"X"`; the second row
carries the duplicate error naming the first row's 1-based position 1,
and the first row carries no duplicate error. -/
theorem c7_duplicate_case_id_witness :
    dupMsg 0 = "Duplicate case ID (first seen at row 1)" ∧
    (({ row := 1, field := "case_id",
        value := (exDupRows.get ⟨1, by decide⟩).case_id,
        message := dupMsg 0 } : ValidationError) ∈ validateData exToday exDupRows) ∧
    ∀ e ∈ validateData exToday exDupRows, e.row = 0 →
      e ∈ rowFieldErrors exToday 0 (exDupRows.get ⟨0, by decide⟩) := by
  obtain ⟨h1, hfl, h2⟩ := c7_duplicate_case_id exToday exDupRows 1 0
    (by decide) (by decide) (by decide) (by decide)
  exact ⟨by decide, h1, h2⟩

end Caseflow
